import Mathlib

/-!
Verification of the credit-ledger core of the virtual-economy server
(`src/server/storage.ts`, data model from `src/shared/schema`).

The storage layer is embedded shallowly: the Postgres tables become lists of
records, each `DatabaseStorage` method becomes a function
`Storage → Option Storage` (`none` = the surrounding transaction throws and
rolls back, so no state change is visible).  Timestamps are `Int`
milliseconds; columns that none of the analysed operations read
(emails, profile images, descriptions of challenges, `createdAt` audit
columns, ...) are omitted from the records.

Modelled from the spec: the transactional semantics of the `db` handle
(`src/server/db.ts` is not part of the provided source).  Per spec §4.1/§5,
a transaction is atomic and all-or-nothing, and nested transaction callbacks
form a single unit; an operation therefore either returns the fully updated
store or fails with no observable change.

The `decimal(10,2)` multiplier column is represented exactly as an integer
number of hundredths (`multiplier = 200` means `"2.00"`).  JavaScript's
`parseFloat` and number arithmetic are IEEE-754 binary64; they are modelled
exactly over `Nat`/`Int` as mantissa–exponent pairs with round-to-nearest,
ties-to-even (normal range; the magnitudes involved are nowhere near the
overflow or subnormal thresholds).
-/

namespace CautiousTribble

/-! ## IEEE-754 binary64 model (exact, over `Nat`) -/

/-- Fuel-driven binary length: `bitlen n = ⌊log₂ n⌋ + 1` for `n > 0`, `bitlen 0 = 0`. -/
def bitlenAux : Nat → Nat → Nat
  | 0, _ => 0
  | f+1, n => if n = 0 then 0 else bitlenAux f (n / 2) + 1

def bitlen (n : Nat) : Nat := bitlenAux n n

/-- Round `n / d` to the nearest integer, ties to even (`d > 0`). -/
def rdiv (n d : Nat) : Nat :=
  let q := n / d
  let r := n % d
  if 2 * r < d then q
  else if d < 2 * r then q + 1
  else if q % 2 = 0 then q else q + 1

/-- Does `n / d < 2 ^ L` hold (with `L : Int`)? -/
def ltTwoPow (n d : Nat) (L : Int) : Bool :=
  if 0 ≤ L then n < d * 2 ^ L.toNat else n * 2 ^ (-L).toNat < d

/-- The binary64 double nearest to `n / d` (`d > 0`), returned as a
mantissa–exponent pair `(m, t)` with value `m * 2 ^ t`; for `n > 0` the
mantissa has 53 significant bits.  Round-to-nearest, ties-to-even. -/
def toDouble (n d : Nat) : Nat × Int :=
  let L : Int := (bitlen n : Int) - (bitlen d : Int)
  let e : Int := if ltTwoPow n d L then L - 1 else L
  let s : Int := 52 - e
  let m := if 0 ≤ s then rdiv (n * 2 ^ s.toNat) d else rdiv n (d * 2 ^ (-s).toNat)
  (m, e - 52)

/-- Value of `parseFloat` on the decimal string with value `k / 100` (the
`decimal(10,2)` multiplier column), as an exact binary64 value. -/
def parse2 (k : Nat) : Nat × Int := toDouble k 100

/-- Binary64 product of the exact integer `a` with the double `(m, t)`. -/
def mulDouble (a : Nat) (md : Nat × Int) : Nat × Int :=
  if 0 ≤ md.2 then toDouble (a * md.1 * 2 ^ md.2.toNat) 1
  else toDouble (a * md.1) (2 ^ (-md.2).toNat)

/-- Floor of the nonnegative double `(m, t)`, exactly as `Math.floor`. -/
def floorDouble (md : Nat × Int) : Nat :=
  if 0 ≤ md.2 then md.1 * 2 ^ md.2.toNat else md.1 / 2 ^ (-md.2).toNat

/-- Ceiling of the nonnegative double `(m, t)` (exact); used to mirror
`Math.floor` on negative products. -/
def ceilDouble (md : Nat × Int) : Nat :=
  if 0 ≤ md.2 then md.1 * 2 ^ md.2.toNat
  else (md.1 + 2 ^ (-md.2).toNat - 1) / 2 ^ (-md.2).toNat

/-- Exact value of `Math.floor(amount * parseFloat(multiplier))` from
`resolveBettingEvent` (storage.ts line 390), with `multiplier` the decimal
column in hundredths.  Signs are handled by symmetry of round-to-nearest
and `floor x = -⌈-x⌉`. -/
def computePayout (amount : Int) (multiplier : Int) : Int :=
  let p := mulDouble amount.natAbs (parse2 multiplier.natAbs)
  if 0 ≤ amount * multiplier then (floorDouble p : Int) else -(ceilDouble p : Int)

example : computePayout 300 200 = 600 := by decide
example : computePayout 100 435 = 434 := by decide
example : computePayout 10 290 = 29 := by decide

/-! ## Data model (from `src/shared/schema`) -/

structure User where
  id : String
  credits : Int
  lastStipendDate : Option Int
deriving DecidableEq

structure Challenge where
  id : String
  title : String
  reward : Int
deriving DecidableEq

structure ChallengeSubmission where
  id : String
  challengeId : String
  userId : String
  status : String
  reviewedBy : Option String
  reviewedAt : Option Int
deriving DecidableEq

structure BettingEvent where
  id : String
  status : String
  winningOptionId : Option String
  resolvedAt : Option Int
deriving DecidableEq

/-- The `multiplier` field is the `decimal(10,2)` column, held exactly in hundredths. -/
structure BettingOption where
  id : String
  eventId : String
  multiplier : Int
deriving DecidableEq

structure Bet where
  id : String
  eventId : String
  optionId : String
  userId : String
  amount : Int
  status : String
  payout : Option Int
deriving DecidableEq

structure Loan where
  id : String
  borrowerId : String
  lenderId : Option String
  amount : Int
  interestRate : Int
  totalRepayment : Int
  dueDate : Int
  status : String
  fundedAt : Option Int
  repaidAt : Option Int
deriving DecidableEq

structure CreditTransaction where
  userId : String
  amount : Int
  type : String
  referenceId : Option String
  description : String
  balanceAfter : Int
deriving DecidableEq

/-- Payload accepted by `placeBet` (`insertBetSchema`
omits id, status, payout and timestamps). -/
structure InsertBet where
  eventId : String
  optionId : String
  userId : String
  amount : Int
deriving DecidableEq

structure Storage where
  users : List User
  challenges : List Challenge
  challengeSubmissions : List ChallengeSubmission
  bettingEvents : List BettingEvent
  bettingOptions : List BettingOption
  bets : List Bet
  loans : List Loan
  creditTransactions : List CreditTransaction
deriving DecidableEq

/-! ## Operations (from `src/server/storage.ts`)

`none` models a thrown exception: the enclosing transaction rolls back and
no change is visible. -/

/-- Model of `DatabaseStorage.updateUserCredits` (storage.ts 109–131): atomically add
`amount` to the user's balance and append the audit entry whose
`balanceAfter` is the post-update balance returned by the `UPDATE`.
A missing user makes `user.credits` throw on `undefined`, rolling back. -/
def updateUserCredits (s : Storage) (userId : String) (amount : Int)
    (type : String) (description : String) (referenceId : Option String) :
    Option Storage :=
  match s.users.find? (fun u => decide (u.id = userId)) with
  | none => none
  | some u =>
      some { s with
        users := s.users.map fun v =>
          if v.id = userId then { v with credits := v.credits + amount } else v,
        creditTransactions := s.creditTransactions ++
          [{ userId := userId, amount := amount, type := type,
             referenceId := referenceId, description := description,
             balanceAfter := u.credits + amount }] }

/-- Eligibility filter of `processWeeklyStipends` (storage.ts 136–141):
`lastStipendDate IS NULL OR lastStipendDate < oneWeekAgo`. -/
def eligibleForStipend (oneWeekAgo : Int) (u : User) : Bool :=
  match u.lastStipendDate with
  | none => true
  | some d => decide (d < oneWeekAgo)

/-- One per-user transaction of the stipend loop (storage.ts 144–161).
`u` is the row read by the eligibility query *before* the loop, so the
appended entry's `balanceAfter` is the snapshot `u.credits + 200`. -/
def stipendStep (now : Int) (st : Storage) (u : User) : Storage :=
  { st with
    users := st.users.map fun v =>
      if v.id = u.id then
        { v with credits := v.credits + 200, lastStipendDate := some now }
      else v,
    creditTransactions := st.creditTransactions ++
      [{ userId := u.id, amount := 200, type := "weekly_stipend",
         referenceId := none, description := "Weekly credit stipend",
         balanceAfter := u.credits + 200 }] }

/-- Model of `DatabaseStorage.processWeeklyStipends` (storage.ts 133–163). -/
def processWeeklyStipends (s : Storage) (now : Int) : Storage :=
  let oneWeekAgo := now - 604800000
  (s.users.filter (eligibleForStipend oneWeekAgo)).foldl (stipendStep now) s

/-- Model of `DatabaseStorage.reviewSubmission` (storage.ts 237–266).  The `UPDATE`
carries no status precondition: any matching submission is overwritten.  If
no row matches, an approval dereferences `undefined` and rolls back, while a
rejection commits with no change. -/
def reviewSubmission (s : Storage) (submissionId : String) (status : String)
    (reviewerId : String) (now : Int) : Option Storage :=
  match s.challengeSubmissions.find? (fun x => decide (x.id = submissionId)) with
  | none => if status = "approved" then none else some s
  | some sub =>
      let s1 := { s with challengeSubmissions := s.challengeSubmissions.map fun x =>
        if x.id = submissionId then
          { x with status := status, reviewedBy := some reviewerId,
                   reviewedAt := some now }
        else x }
      if status = "approved" then
        match s.challenges.find? (fun c => decide (c.id = sub.challengeId)) with
        | none => some s1
        | some challenge =>
            updateUserCredits s1 sub.userId challenge.reward "challenge_reward"
              ("Challenge completed: " ++ challenge.title) (some challenge.id)
      else some s1

/-- Model of `DatabaseStorage.placeBet` (storage.ts 311–323).  `newId` is the
database-generated primary key of the inserted row.  No validation of the
amount or of the event's status is performed. -/
def placeBet (s : Storage) (newId : String) (bet : InsertBet) : Option Storage :=
  let s1 := { s with bets := s.bets ++
    [{ id := newId, eventId := bet.eventId, optionId := bet.optionId,
       userId := bet.userId, amount := bet.amount, status := "active",
       payout := none }] }
  updateUserCredits s1 bet.userId (-bet.amount) "bet_placed" "Bet placed"
    (some bet.eventId)

/-- Model of `DatabaseStorage.cancelBet` (storage.ts 325–343).  The `UPDATE` matches
on id and owner only — the bet's current status is not checked. -/
def cancelBet (s : Storage) (betId : String) (userId : String) : Option Storage :=
  match s.bets.find? (fun b => decide (b.id = betId ∧ b.userId = userId)) with
  | none => some s
  | some bet =>
      let s1 := { s with bets := s.bets.map fun x =>
        if x.id = betId ∧ x.userId = userId then { x with status := "cancelled" }
        else x }
      updateUserCredits s1 userId bet.amount "bet_cancelled"
        "Bet cancelled and refunded" (some bet.eventId)

/-- The payout loop of `resolveBettingEvent` (storage.ts 389–404): mark each
winning bet `won` with its payout, then credit the bettor. -/
def payWinners (eventId : String) :
    List (Bet × BettingOption) → Storage → Option Storage
  | [], st => some st
  | (bet, opt) :: rest, st =>
      let payout := computePayout bet.amount opt.multiplier
      let st1 := { st with bets := st.bets.map fun x =>
        if x.id = bet.id then { x with status := "won", payout := some payout }
        else x }
      match updateUserCredits st1 bet.userId payout "bet_win"
          "Betting win payout" (some eventId) with
      | none => none
      | some st2 => payWinners eventId rest st2

/-- Model of `DatabaseStorage.resolveBettingEvent` (storage.ts 366–417).  The event
row is overwritten without checking its current status; winning bets are the
still-active bets on the winning option inner-joined with their option row;
remaining active bets on the event are marked lost. -/
def resolveBettingEvent (s : Storage) (eventId winningOptionId adminId : String)
    (now : Int) : Option Storage :=
  let s1 := { s with bettingEvents := s.bettingEvents.map fun ev =>
    if ev.id = eventId then
      { ev with status := "resolved", winningOptionId := some winningOptionId,
                resolvedAt := some now }
    else ev }
  let winningBets := (s1.bets.filter fun b =>
      decide (b.eventId = eventId ∧ b.optionId = winningOptionId ∧
        b.status = "active")).filterMap fun b =>
    (s1.bettingOptions.find? fun o => decide (o.id = b.optionId)).map fun o => (b, o)
  match payWinners eventId winningBets s1 with
  | none => none
  | some s2 =>
      some { s2 with bets := s2.bets.map fun b =>
        if b.eventId = eventId ∧ b.optionId ≠ winningOptionId ∧
            b.status = "active" then
          { b with status := "lost" }
        else b }

/-- Model of `DatabaseStorage.fundLoan` (storage.ts 472–504).  The `UPDATE` matches
on id only — any existing loan, whatever its status, is (re)marked funded
and the amount is moved lender→borrower. -/
def fundLoan (s : Storage) (loanId lenderId : String) (now : Int) :
    Option Storage :=
  match s.loans.find? (fun l => decide (l.id = loanId)) with
  | none => some s
  | some loan =>
      let s1 := { s with loans := s.loans.map fun l =>
        if l.id = loanId then
          { l with lenderId := some lenderId, status := "funded",
                   fundedAt := some now }
        else l }
      match updateUserCredits s1 lenderId (-loan.amount) "loan_funded"
          "Loan funded to another user" (some loanId) with
      | none => none
      | some s2 =>
          updateUserCredits s2 loan.borrowerId loan.amount "loan_received"
            "Loan received from another user" (some loanId)

/-- Model of `DatabaseStorage.repayLoan` (storage.ts 506–537).  The `UPDATE` matches
on id only; credits move only when the (re)updated loan has a lender. -/
def repayLoan (s : Storage) (loanId : String) (now : Int) : Option Storage :=
  match s.loans.find? (fun l => decide (l.id = loanId)) with
  | none => some s
  | some loan =>
      let s1 := { s with loans := s.loans.map fun l =>
        if l.id = loanId then
          { l with status := "repaid", repaidAt := some now }
        else l }
      match loan.lenderId with
      | none => some s1
      | some lender =>
          match updateUserCredits s1 loan.borrowerId (-loan.totalRepayment)
              "loan_repaid" "Loan repayment" (some loanId) with
          | none => none
          | some s2 =>
              updateUserCredits s2 lender loan.totalRepayment
                "loan_repaid_received" "Loan repayment received" (some loanId)

/-- The balance-affecting core operations named by the ledger invariants. -/
inductive CoreOp where
  | applyCredits (userId : String) (amount : Int) (type description : String)
      (referenceId : Option String)
  | stipends (now : Int)
  | review (submissionId status reviewerId : String) (now : Int)
  | place (newId : String) (bet : InsertBet)
  | cancel (betId userId : String)
  | resolve (eventId winningOptionId adminId : String) (now : Int)
  | fund (loanId lenderId : String) (now : Int)
  | repay (loanId : String) (now : Int)

def runOp : CoreOp → Storage → Option Storage
  | .applyCredits uid a t d r, s => updateUserCredits s uid a t d r
  | .stipends now, s => some (processWeeklyStipends s now)
  | .review sid st rid now, s => reviewSubmission s sid st rid now
  | .place nid b, s => placeBet s nid b
  | .cancel bid uid, s => cancelBet s bid uid
  | .resolve e w a now, s => resolveBettingEvent s e w a now
  | .fund lid lender now, s => fundLoan s lid lender now
  | .repay lid now, s => repayLoan s lid now

/-! ## Ledger invariants -/

/-- The ledger entries of one player, in creation order. -/
def userEntries (uid : String) (l : List CreditTransaction) :
    List CreditTransaction :=
  l.filter fun t => decide (t.userId = uid)

/-- Sum of the amounts of one player's ledger entries. -/
def ledgerSum (s : Storage) (uid : String) : Int :=
  ((userEntries uid s.creditTransactions).map CreditTransaction.amount).sum

/-- Well-formedness of the store: primary keys are unique. -/
def WF (s : Storage) : Prop :=
  (s.users.map User.id).Nodup ∧ (s.bets.map Bet.id).Nodup

/-- Balance obtained by replaying a run of entries from `prev`. -/
def lastBalance (prev : Int) : List CreditTransaction → Int
  | [] => prev
  | e :: rest => lastBalance e.balanceAfter rest

/-- Each entry's `balanceAfter` continues the running balance started at
`prev`: the first entry records `prev + amount`, and so on in order. -/
def chainFromOk (prev : Int) : List CreditTransaction → Bool
  | [] => true
  | e :: rest =>
      decide (e.balanceAfter = prev + e.amount) && chainFromOk e.balanceAfter rest

/-- How one operation may move a user: the id is stable, the new entries for
that user chain correctly from the old balance, and the new balance is the
end of that chain. -/
def UserDelta (extra : List CreditTransaction) (u u' : User) : Prop :=
  u'.id = u.id ∧
  chainFromOk u.credits (userEntries u.id extra) = true ∧
  u'.credits = lastBalance u.credits (userEntries u.id extra)

/-- Frame of one operation: entries are only appended, and every user moves
by exactly the entries appended for them. -/
def OpFrame (s s' : Storage) (extra : List CreditTransaction) : Prop :=
  s'.creditTransactions = s.creditTransactions ++ extra ∧
  List.Forall₂ (UserDelta extra) s.users s'.users

/-! ## Helper lemmas about chains, filters and `Forall₂` -/

theorem lastBalance_append (prev : Int) (a b : List CreditTransaction) :
    lastBalance prev (a ++ b) = lastBalance (lastBalance prev a) b := by
  induction a generalizing prev with
  | nil => rfl
  | cons e rest ih => simp [lastBalance, ih]

theorem chainFromOk_append (prev : Int) (a b : List CreditTransaction) :
    chainFromOk prev (a ++ b) =
      (chainFromOk prev a && chainFromOk (lastBalance prev a) b) := by
  induction a generalizing prev with
  | nil => simp [chainFromOk, lastBalance]
  | cons e rest ih => simp [chainFromOk, lastBalance, ih, Bool.and_assoc]

theorem lastBalance_eq_add_sum (prev : Int) (l : List CreditTransaction)
    (h : chainFromOk prev l = true) :
    lastBalance prev l = prev + (l.map CreditTransaction.amount).sum := by
  induction l generalizing prev with
  | nil => simp [lastBalance]
  | cons e rest ih =>
      simp only [chainFromOk, Bool.and_eq_true, decide_eq_true_eq] at h
      rw [lastBalance, ih _ h.2, h.1]
      simp [add_assoc]

theorem getLast?_balanceAfter (prev : Int) (l : List CreditTransaction)
    (h : chainFromOk prev l = true) :
    ∀ e ∈ l.getLast?, e.balanceAfter = lastBalance prev l := by
  induction l generalizing prev with
  | nil => intro e he; cases he
  | cons x rest ih =>
      simp only [chainFromOk, Bool.and_eq_true, decide_eq_true_eq] at h
      intro e he
      cases rest with
      | nil =>
          simp only [List.getLast?_singleton, Option.mem_def,
            Option.some.injEq] at he
          subst he; rfl
      | cons y t =>
          rw [List.getLast?_cons_cons] at he
          exact ih _ h.2 e he

theorem userEntries_append (uid : String) (a b : List CreditTransaction) :
    userEntries uid (a ++ b) = userEntries uid a ++ userEntries uid b := by
  simp [userEntries]

theorem forall2_trans_comp {α β γ : Type _} {R : α → β → Prop}
    {S : β → γ → Prop} {T : α → γ → Prop}
    (hcomp : ∀ a b c, R a b → S b c → T a c) :
    ∀ {l1 : List α} {l2 : List β} {l3 : List γ},
      List.Forall₂ R l1 l2 → List.Forall₂ S l2 l3 → List.Forall₂ T l1 l3 := by
  intro l1 l2 l3 h1
  induction h1 generalizing l3 with
  | nil => intro h2; cases h2; exact .nil
  | cons hr _ ih =>
      intro h2
      cases h2 with
      | cons hs ht => exact .cons (hcomp _ _ _ hr hs) (ih ht)

theorem forall2_mem_right {α β : Type _} {R : α → β → Prop} {l : List α}
    {l' : List β} (h : List.Forall₂ R l l') {b : β} (hb : b ∈ l') :
    ∃ a ∈ l, R a b := by
  induction h with
  | nil => cases hb
  | cons hr _ ih =>
      rcases List.mem_cons.mp hb with rfl | hb'
      · exact ⟨_, List.mem_cons_self _ _, hr⟩
      · obtain ⟨a, ha, har⟩ := ih hb'
        exact ⟨a, List.mem_cons_of_mem _ ha, har⟩

theorem forall2_map_right {α β : Type _} {R : α → β → Prop} {l : List α}
    {f : α → β} (h : ∀ a ∈ l, R a (f a)) : List.Forall₂ R l (l.map f) := by
  induction l with
  | nil => exact .nil
  | cons x rest ih =>
      exact .cons (h x (List.mem_cons_self _ _))
        (ih fun a ha => h a (List.mem_cons_of_mem _ ha))

theorem forall2_map_preserve {α β : Type _} {R : α → β → Prop} {l : List α}
    {l' : List β} (g : β → β) (hg : ∀ a ∈ l, ∀ b, R a b → R a (g b))
    (h : List.Forall₂ R l l') : List.Forall₂ R l (l'.map g) := by
  induction h with
  | nil => exact .nil
  | @cons a b l1 l2 hr _ ih =>
      exact .cons (hg a (List.mem_cons_self _ _) b hr)
        (ih fun x hx => hg x (List.mem_cons_of_mem _ hx))

theorem opFrame_refl (s s' : Storage) (hu : s'.users = s.users)
    (hc : s'.creditTransactions = s.creditTransactions) : OpFrame s s' [] := by
  refine ⟨by rw [hc, List.append_nil], ?_⟩
  rw [hu]
  exact List.forall₂_same.mpr fun u _ => ⟨rfl, rfl, rfl⟩

theorem opFrame_trans {s s1 s2 : Storage} {e1 e2 : List CreditTransaction}
    (h1 : OpFrame s s1 e1) (h2 : OpFrame s1 s2 e2) :
    OpFrame s s2 (e1 ++ e2) := by
  obtain ⟨hc1, hf1⟩ := h1
  obtain ⟨hc2, hf2⟩ := h2
  refine ⟨by rw [hc2, hc1, List.append_assoc], ?_⟩
  refine forall2_trans_comp ?_ hf1 hf2
  rintro u v w ⟨hid1, hch1, hcr1⟩ ⟨hid2, hch2, hcr2⟩
  rw [hid1] at hch2 hcr2
  refine ⟨hid2.trans hid1, ?_, ?_⟩
  · rw [userEntries_append, chainFromOk_append, hch1, ← hcr1, hch2]
    rfl
  · rw [hcr2, userEntries_append, lastBalance_append, ← hcr1]

theorem forall2_userDelta_ids {extra : List CreditTransaction} :
    ∀ {l l' : List User}, List.Forall₂ (UserDelta extra) l l' →
      l'.map User.id = l.map User.id := by
  intro l l' h
  induction h with
  | nil => rfl
  | cons hr _ ih => simp [List.map_cons, ih, hr.1]

theorem opFrame_ids {s s' : Storage} {extra : List CreditTransaction}
    (h : OpFrame s s' extra) :
    s'.users.map User.id = s.users.map User.id :=
  forall2_userDelta_ids h.2

theorem nodup_user_inj {l : List User} (hnd : (l.map User.id).Nodup)
    {u v : User} (hu : u ∈ l) (hv : v ∈ l) (h : u.id = v.id) : u = v :=
  List.inj_on_of_nodup_map hnd hu hv h

/-! ## Frame lemmas for the individual operations -/

theorem userEntries_singleton_self (uid : String) (e : CreditTransaction)
    (h : e.userId = uid) : userEntries uid [e] = [e] := by
  simp [userEntries, h]

theorem userEntries_singleton_other (uid : String) (e : CreditTransaction)
    (h : ¬ e.userId = uid) : userEntries uid [e] = [] := by
  simp [userEntries, h]

theorem updateUserCredits_frame {s s' : Storage} {uid : String} {a : Int}
    {t d : String} {r : Option String}
    (hnd : (s.users.map User.id).Nodup)
    (h : updateUserCredits s uid a t d r = some s') :
    ∃ e : CreditTransaction, e.userId = uid ∧ e.amount = a ∧ e.type = t ∧
      e.referenceId = r ∧ OpFrame s s' [e] := by
  unfold updateUserCredits at h
  cases hf : s.users.find? (fun u => decide (u.id = uid)) with
  | none => rw [hf] at h; cases h
  | some u =>
      rw [hf] at h
      have hu_mem : u ∈ s.users := List.mem_of_find?_eq_some hf
      have hu_id : u.id = uid := by
        have := List.find?_some hf
        simpa using this
      cases h
      refine ⟨_, rfl, rfl, rfl, rfl, rfl, ?_⟩
      apply forall2_map_right
      intro v hv
      by_cases hid : v.id = uid
      · have hvu : v = u := nodup_user_inj hnd hv hu_mem (hid.trans hu_id.symm)
        refine ⟨by simp [hid], ?_, ?_⟩
        · rw [hid, userEntries_singleton_self uid _ rfl]
          simp [chainFromOk, hvu]
        · rw [hid, userEntries_singleton_self uid _ rfl]
          simp [lastBalance, hid, hvu]
      · refine ⟨by simp [hid], ?_, ?_⟩
        · rw [userEntries_singleton_other v.id _ (by simpa using Ne.symm hid)]
          rfl
        · rw [userEntries_singleton_other v.id _ (by simpa using Ne.symm hid)]
          simp [lastBalance, hid]

theorem stipendStep_frame (now : Int) {st : Storage} {u : User}
    (h : ∀ v ∈ st.users, v.id = u.id → v.credits = u.credits) :
    OpFrame st (stipendStep now st u)
      [{ userId := u.id, amount := 200, type := "weekly_stipend",
         referenceId := none, description := "Weekly credit stipend",
         balanceAfter := u.credits + 200 }] := by
  refine ⟨rfl, ?_⟩
  apply forall2_map_right
  intro v hv
  by_cases hid : v.id = u.id
  · have hcred : v.credits = u.credits := h v hv hid
    refine ⟨by simp [hid], ?_, ?_⟩
    · rw [hid, userEntries_singleton_self u.id _ rfl]
      simp [chainFromOk, hcred]
    · rw [hid, userEntries_singleton_self u.id _ rfl]
      simp [lastBalance, hid, hcred]
  · refine ⟨by simp [hid], ?_, ?_⟩
    · rw [userEntries_singleton_other v.id _ (by simpa using Ne.symm hid)]
      rfl
    · rw [userEntries_singleton_other v.id _ (by simpa using Ne.symm hid)]
      simp [lastBalance, hid]

theorem stipends_foldl_frame {s : Storage} (now : Int)
    (hnd : (s.users.map User.id).Nodup) :
    ∀ (todo : List User) (st : Storage) (extra : List CreditTransaction),
      (todo.map User.id).Nodup →
      (∀ u ∈ todo, u ∈ s.users) →
      (∀ u ∈ todo, userEntries u.id extra = []) →
      OpFrame s st extra →
      ∃ extra', OpFrame s (todo.foldl (stipendStep now) st) extra' := by
  intro todo
  induction todo with
  | nil => intro st extra _ _ _ hf; exact ⟨extra, hf⟩
  | cons u rest ih =>
      intro st extra hnodup hmem hempty hf
      have hcred : ∀ v ∈ st.users, v.id = u.id → v.credits = u.credits := by
        intro v hv hid
        obtain ⟨w, hw, hd⟩ := forall2_mem_right hf.2 hv
        have hwid : w.id = u.id := hd.1.symm.trans hid
        have hwu : w = u :=
          nodup_user_inj hnd hw (hmem u (List.mem_cons_self _ _)) hwid
        rw [hd.2.2, hwid, hempty u (List.mem_cons_self _ _), hwu]
        rfl
      have hstep := stipendStep_frame now hcred
      refine ih (stipendStep now st u) _ ((List.nodup_cons.mp hnodup).2)
        (fun x hx => hmem x (List.mem_cons_of_mem _ hx)) ?_
        (opFrame_trans hf hstep)
      intro x hx
      rw [userEntries_append, hempty x (List.mem_cons_of_mem _ hx),
        List.nil_append]
      apply userEntries_singleton_other
      intro hxid
      have hxid' : u.id = x.id := hxid
      exact (List.nodup_cons.mp hnodup).1
        (by rw [hxid']; exact List.mem_map_of_mem User.id hx)

theorem processWeeklyStipends_frame {s : Storage} (now : Int)
    (hnd : (s.users.map User.id).Nodup) :
    ∃ extra, OpFrame s (processWeeklyStipends s now) extra := by
  unfold processWeeklyStipends
  refine stipends_foldl_frame now hnd _ s [] ?_ ?_ (fun u _ => rfl)
    (opFrame_refl s s rfl rfl)
  · exact hnd.sublist ((List.filter_sublist _).map User.id)
  · intro u hu; exact List.mem_of_mem_filter hu

theorem payWinners_frame {e : String} :
    ∀ (pairs : List (Bet × BettingOption)) (st st' : Storage),
      (st.users.map User.id).Nodup →
      payWinners e pairs st = some st' →
      ∃ extra, OpFrame st st' extra := by
  intro pairs
  induction pairs with
  | nil =>
      intro st st' _ h
      cases h
      exact ⟨[], opFrame_refl _ _ rfl rfl⟩
  | cons p rest ih =>
      obtain ⟨bet, opt⟩ := p
      intro st st' hnd h
      rw [payWinners] at h
      split at h
      · cases h
      next st2 hup =>
        obtain ⟨en, _, _, _, _, h2⟩ := updateUserCredits_frame (by exact hnd) hup
        have h2' : OpFrame st st2 ([] ++ [en]) :=
          opFrame_trans (opFrame_refl _ _ rfl rfl) h2
        have hnd2 : (st2.users.map User.id).Nodup := by
          rw [opFrame_ids h2']; exact hnd
        obtain ⟨extra, h3⟩ := ih st2 st' hnd2 h
        exact ⟨([] ++ [en]) ++ extra, opFrame_trans h2' h3⟩

theorem reviewSubmission_frame {s s' : Storage} {sid dec rid : String} {now : Int}
    (hnd : (s.users.map User.id).Nodup)
    (h : reviewSubmission s sid dec rid now = some s') :
    ∃ extra, OpFrame s s' extra := by
  unfold reviewSubmission at h
  split at h
  · split at h
    · cases h
    · cases h; exact ⟨[], opFrame_refl _ _ rfl rfl⟩
  · split at h
    · split at h
      · cases h; exact ⟨[], opFrame_refl _ _ rfl rfl⟩
      · obtain ⟨en, _, _, _, _, h2⟩ := updateUserCredits_frame (by exact hnd) h
        exact ⟨[] ++ [en], opFrame_trans (opFrame_refl _ _ rfl rfl) h2⟩
    · cases h; exact ⟨[], opFrame_refl _ _ rfl rfl⟩

theorem placeBet_frame {s s' : Storage} {nid : String} {b : InsertBet}
    (hnd : (s.users.map User.id).Nodup)
    (h : placeBet s nid b = some s') :
    ∃ extra, OpFrame s s' extra := by
  unfold placeBet at h
  obtain ⟨en, _, _, _, _, h2⟩ := updateUserCredits_frame (by exact hnd) h
  exact ⟨[] ++ [en], opFrame_trans (opFrame_refl _ _ rfl rfl) h2⟩

theorem cancelBet_frame {s s' : Storage} {bid uid : String}
    (hnd : (s.users.map User.id).Nodup)
    (h : cancelBet s bid uid = some s') :
    ∃ extra, OpFrame s s' extra := by
  unfold cancelBet at h
  split at h
  · cases h; exact ⟨[], opFrame_refl _ _ rfl rfl⟩
  · obtain ⟨en, _, _, _, _, h2⟩ := updateUserCredits_frame (by exact hnd) h
    exact ⟨[] ++ [en], opFrame_trans (opFrame_refl _ _ rfl rfl) h2⟩

theorem resolveBettingEvent_entries_frame {s s' : Storage}
    {e w a : String} {now : Int}
    (hnd : (s.users.map User.id).Nodup)
    (h : resolveBettingEvent s e w a now = some s') :
    ∃ extra, OpFrame s s' extra := by
  unfold resolveBettingEvent at h
  dsimp only at h
  split at h
  · cases h
  next s2 hpw =>
    cases h
    obtain ⟨extra, h2⟩ := payWinners_frame _ _ _ (by exact hnd) hpw
    exact ⟨([] ++ extra) ++ [],
      opFrame_trans (opFrame_trans (opFrame_refl _ _ rfl rfl) h2)
        (opFrame_refl _ _ rfl rfl)⟩

theorem fundLoan_frame {s s' : Storage} {lid lender : String} {now : Int}
    (hnd : (s.users.map User.id).Nodup)
    (h : fundLoan s lid lender now = some s') :
    ∃ extra, OpFrame s s' extra := by
  unfold fundLoan at h
  split at h
  · cases h; exact ⟨[], opFrame_refl _ _ rfl rfl⟩
  · dsimp only at h
    split at h
    · cases h
    next s2 hup =>
      obtain ⟨e1, _, _, _, _, h1⟩ := updateUserCredits_frame (by exact hnd) hup
      have h1' : OpFrame s s2 ([] ++ [e1]) :=
        opFrame_trans (opFrame_refl _ _ rfl rfl) h1
      have hnd2 : (s2.users.map User.id).Nodup := by
        rw [opFrame_ids h1']; exact hnd
      obtain ⟨e2, _, _, _, _, h2⟩ := updateUserCredits_frame hnd2 h
      exact ⟨([] ++ [e1]) ++ [e2], opFrame_trans h1' h2⟩

theorem repayLoan_frame {s s' : Storage} {lid : String} {now : Int}
    (hnd : (s.users.map User.id).Nodup)
    (h : repayLoan s lid now = some s') :
    ∃ extra, OpFrame s s' extra := by
  unfold repayLoan at h
  split at h
  · cases h; exact ⟨[], opFrame_refl _ _ rfl rfl⟩
  · dsimp only at h
    split at h
    · cases h; exact ⟨[], opFrame_refl _ _ rfl rfl⟩
    · split at h
      · cases h
      next s2 hup =>
        obtain ⟨e1, _, _, _, _, h1⟩ := updateUserCredits_frame (by exact hnd) hup
        have h1' : OpFrame s s2 ([] ++ [e1]) :=
          opFrame_trans (opFrame_refl _ _ rfl rfl) h1
        have hnd2 : (s2.users.map User.id).Nodup := by
          rw [opFrame_ids h1']; exact hnd
        obtain ⟨e2, _, _, _, _, h2⟩ := updateUserCredits_frame hnd2 h
        exact ⟨([] ++ [e1]) ++ [e2], opFrame_trans h1' h2⟩

/-- Master frame theorem: every core operation only appends ledger entries,
and moves every user's balance exactly along its own appended entries. -/
theorem runOp_frame {op : CoreOp} {s s' : Storage}
    (hnd : (s.users.map User.id).Nodup)
    (h : runOp op s = some s') : ∃ extra, OpFrame s s' extra := by
  cases op with
  | applyCredits uid a t d r =>
      obtain ⟨e, _, _, _, _, hf⟩ := updateUserCredits_frame hnd h
      exact ⟨[e], hf⟩
  | stipends now =>
      cases h
      exact processWeeklyStipends_frame now hnd
  | review sid dec rid now => exact reviewSubmission_frame hnd h
  | place nid b => exact placeBet_frame hnd h
  | cancel bid uid => exact cancelBet_frame hnd h
  | resolve e w a now => exact resolveBettingEvent_entries_frame (a := a) hnd h
  | fund lid lender now => exact fundLoan_frame hnd h
  | repay lid now => exact repayLoan_frame hnd h

/-! ## Claim C1 -/

/-- C1: for every player, starting from any state in which the player's
credits balance equals the sum of the amounts of that player's
`creditTransactions` entries, every core operation
(`updateUserCredits`, `processWeeklyStipends`, `reviewSubmission`,
`placeBet`, `cancelBet`, `resolveBettingEvent`, `fundLoan`, `repayLoan`)
preserves this equality. -/
theorem coreOps_preserve_balance_eq_ledgerSum
    (op : CoreOp) (s s' : Storage) (uid : String)
    (hwf : WF s) (hrun : runOp op s = some s')
    (hbal : ∀ u ∈ s.users, u.id = uid → u.credits = ledgerSum s uid) :
    ∀ u' ∈ s'.users, u'.id = uid → u'.credits = ledgerSum s' uid := by
  obtain ⟨extra, hframe⟩ := runOp_frame hwf.1 hrun
  intro u' hu' hid
  obtain ⟨u, hu, hd⟩ := forall2_mem_right hframe.2 hu'
  have huid : u.id = uid := hd.1.symm.trans hid
  have hcred : u.credits = ledgerSum s uid := hbal u hu huid
  have hsum' : ledgerSum s' uid = ledgerSum s uid +
      ((userEntries uid extra).map CreditTransaction.amount).sum := by
    unfold ledgerSum
    rw [hframe.1, userEntries_append, List.map_append, List.sum_append]
  rw [hd.2.2, huid, lastBalance_eq_add_sum _ _ (huid ▸ hd.2.1), hcred, hsum']

def c1w_s : Storage :=
  { users := [{ id := "u1", credits := -300, lastStipendDate := none }],
    challenges := [], challengeSubmissions := [], bettingEvents := [],
    bettingOptions := [], bets := [], loans := [],
    creditTransactions :=
      [{ userId := "u1", amount := -300, type := "bet_placed",
         referenceId := some "e1", description := "Bet placed",
         balanceAfter := -300 }] }

def c1w_s' : Storage :=
  { users := [{ id := "u1", credits := -100, lastStipendDate := none }],
    challenges := [], challengeSubmissions := [], bettingEvents := [],
    bettingOptions := [], bets := [], loans := [],
    creditTransactions :=
      [{ userId := "u1", amount := -300, type := "bet_placed",
         referenceId := some "e1", description := "Bet placed",
         balanceAfter := -300 },
       { userId := "u1", amount := 200, type := "challenge_reward",
         referenceId := some "c1", description := "Challenge completed: T",
         balanceAfter := -100 }] }

theorem coreOps_preserve_balance_eq_ledgerSum_witness :
    ((c1w_s.users.map User.id).Nodup ∧ (c1w_s.bets.map Bet.id).Nodup) ∧
    runOp (.applyCredits "u1" 200 "challenge_reward"
      "Challenge completed: T" (some "c1")) c1w_s = some c1w_s' ∧
    (∀ u ∈ c1w_s.users, u.id = "u1" → u.credits = ledgerSum c1w_s "u1") ∧
    (∀ u' ∈ c1w_s'.users, u'.id = "u1" → u'.credits = ledgerSum c1w_s' "u1") :=
  ⟨⟨by decide, by decide⟩, by decide, by decide,
    coreOps_preserve_balance_eq_ledgerSum
      (.applyCredits "u1" 200 "challenge_reward" "Challenge completed: T"
        (some "c1")) c1w_s c1w_s' "u1"
      ⟨by decide, by decide⟩ (by decide) (by decide)⟩

/-! ## Claim C2 -/

/-- C2: every ledger entry created by an operation has `balanceAfter`
equal to the owning player's balance immediately after that entry's amount
was applied, in entry-creation order: the entries appended for a player
chain from the player's previous balance and end at the new balance, so in
particular the newest entry's `balanceAfter` equals the player's current
balance. -/
theorem ledger_balanceAfter_is_running_balance
    (op : CoreOp) (s s' : Storage)
    (hwf : WF s) (hrun : runOp op s = some s') :
    ∃ extra, s'.creditTransactions = s.creditTransactions ++ extra ∧
      List.Forall₂ (fun u u' =>
        u'.id = u.id ∧
        chainFromOk u.credits (userEntries u.id extra) = true ∧
        u'.credits = lastBalance u.credits (userEntries u.id extra) ∧
        (userEntries u.id extra ≠ [] →
          ∀ e ∈ (userEntries u.id s'.creditTransactions).getLast?,
            e.balanceAfter = u'.credits)) s.users s'.users := by
  obtain ⟨extra, hc, hf⟩ := runOp_frame hwf.1 hrun
  refine ⟨extra, hc, ?_⟩
  refine List.Forall₂.imp ?_ hf
  rintro u u' ⟨hid, hch, hcr⟩
  refine ⟨hid, hch, hcr, ?_⟩
  intro hne e he
  rw [hc, userEntries_append,
    List.getLast?_append_of_ne_nil _ hne] at he
  rw [getLast?_balanceAfter _ _ hch e he, hcr]

theorem ledger_balanceAfter_is_running_balance_witness :
    ((c1w_s.users.map User.id).Nodup ∧ (c1w_s.bets.map Bet.id).Nodup) ∧
    runOp (.applyCredits "u1" 200 "challenge_reward"
      "Challenge completed: T" (some "c1")) c1w_s = some c1w_s' ∧
    (∃ extra, c1w_s'.creditTransactions = c1w_s.creditTransactions ++ extra ∧
      List.Forall₂ (fun u u' =>
        u'.id = u.id ∧
        chainFromOk u.credits (userEntries u.id extra) = true ∧
        u'.credits = lastBalance u.credits (userEntries u.id extra) ∧
        (userEntries u.id extra ≠ [] →
          ∀ e ∈ (userEntries u.id c1w_s'.creditTransactions).getLast?,
            e.balanceAfter = u'.credits)) c1w_s.users c1w_s'.users) :=
  ⟨⟨by decide, by decide⟩, by decide,
    ledger_balanceAfter_is_running_balance
      (.applyCredits "u1" 200 "challenge_reward" "Challenge completed: T"
        (some "c1")) c1w_s c1w_s' ⟨by decide, by decide⟩ (by decide)⟩

/-! ## Claim C10: frame of `resolveBettingEvent` -/

theorem updateUserCredits_same_rest {s s' : Storage} {uid : String} {a : Int}
    {t d : String} {r : Option String}
    (h : updateUserCredits s uid a t d r = some s') :
    s'.bets = s.bets ∧ s'.bettingEvents = s.bettingEvents ∧
    s'.bettingOptions = s.bettingOptions := by
  unfold updateUserCredits at h
  split at h
  · cases h
  · cases h; exact ⟨rfl, rfl, rfl⟩

theorem updateUserCredits_users_shape {s s' : Storage} {uid : String} {a : Int}
    {t d : String} {r : Option String}
    (h : updateUserCredits s uid a t d r = some s') :
    s'.users = s.users.map fun v =>
      if v.id = uid then { v with credits := v.credits + a } else v := by
  unfold updateUserCredits at h
  split at h
  · cases h
  · cases h; rfl

theorem updateUserCredits_entries_shape {s s' : Storage} {uid : String}
    {a : Int} {t d : String} {r : Option String}
    (h : updateUserCredits s uid a t d r = some s') :
    ∃ bal, s'.creditTransactions = s.creditTransactions ++
      [{ userId := uid, amount := a, type := t, referenceId := r,
         description := d, balanceAfter := bal }] := by
  unfold updateUserCredits at h
  split at h
  · cases h
  · cases h; exact ⟨_, rfl⟩

/-- Bets not on event `e`, or no longer active, are untouched by the
payout loop. -/
theorem payWinners_keeps_bets {sb : List Bet} {e : String}
    (hinj : ∀ x ∈ sb, ∀ y ∈ sb, x.id = y.id → x = y) :
    ∀ (pairs : List (Bet × BettingOption)) (st st' : Storage),
      (∀ p ∈ pairs, p.1 ∈ sb ∧ p.1.eventId = e ∧ p.1.status = "active") →
      payWinners e pairs st = some st' →
      List.Forall₂ (fun b b' => b.eventId ≠ e ∨ b.status ≠ "active" → b' = b)
        sb st.bets →
      List.Forall₂ (fun b b' => b.eventId ≠ e ∨ b.status ≠ "active" → b' = b)
        sb st'.bets := by
  intro pairs
  induction pairs with
  | nil => intro st st' _ h hrel; cases h; exact hrel
  | cons p rest ih =>
      obtain ⟨bet, opt⟩ := p
      intro st st' hp h hrel
      rw [payWinners] at h
      split at h
      · cases h
      next st2 hup =>
        have hbet := hp (bet, opt) (List.mem_cons_self _ _)
        have hrel1 : List.Forall₂
            (fun b b' => b.eventId ≠ e ∨ b.status ≠ "active" → b' = b)
            sb (st.bets.map fun x =>
              if x.id = bet.id then
                { x with status := "won",
                         payout := some (computePayout bet.amount opt.multiplier) }
              else x) := by
          refine forall2_map_preserve _ ?_ hrel
          intro x hx b hxb hbad
          rw [hxb hbad]
          have hxbet : ¬ x.id = bet.id := by
            intro hid
            have : x = bet := hinj x hx bet hbet.1 hid
            rcases hbad with hb | hb
            · exact hb (this ▸ hbet.2.1)
            · exact hb (this ▸ hbet.2.2)
          simp [hxbet]
        have hrel2 : List.Forall₂
            (fun b b' => b.eventId ≠ e ∨ b.status ≠ "active" → b' = b)
            sb st2.bets := by
          rw [(updateUserCredits_same_rest hup).1]
          exact hrel1
        exact ih st2 st' (fun q hq => hp q (List.mem_cons_of_mem _ hq)) h hrel2

/-- Users who own no active bet on the winning option of event `e` are
untouched by the payout loop. -/
theorem payWinners_keeps_users {sb : List Bet} {e w : String} :
    ∀ (pairs : List (Bet × BettingOption)) (st st' : Storage),
      (∀ p ∈ pairs, p.1 ∈ sb ∧ p.1.eventId = e ∧ p.1.optionId = w ∧
        p.1.status = "active") →
      payWinners e pairs st = some st' →
      ∀ {su : List User},
      List.Forall₂ (fun u u' =>
        (∀ b ∈ sb, b.userId = u.id →
          ¬(b.eventId = e ∧ b.optionId = w ∧ b.status = "active")) → u' = u)
        su st.users →
      List.Forall₂ (fun u u' =>
        (∀ b ∈ sb, b.userId = u.id →
          ¬(b.eventId = e ∧ b.optionId = w ∧ b.status = "active")) → u' = u)
        su st'.users := by
  intro pairs
  induction pairs with
  | nil => intro st st' _ h su hrel; cases h; exact hrel
  | cons p rest ih =>
      obtain ⟨bet, opt⟩ := p
      intro st st' hp h su hrel
      rw [payWinners] at h
      split at h
      · cases h
      next st2 hup =>
        have hbet := hp (bet, opt) (List.mem_cons_self _ _)
        have hrel2 : List.Forall₂ (fun u u' =>
            (∀ b ∈ sb, b.userId = u.id →
              ¬(b.eventId = e ∧ b.optionId = w ∧ b.status = "active")) → u' = u)
            su st2.users := by
          rw [updateUserCredits_users_shape hup]
          refine forall2_map_preserve _ ?_ hrel
          intro u hu v huv hno
          rw [huv hno]
          have hune : ¬ u.id = bet.userId := by
            intro hid
            exact hno bet hbet.1 hid.symm ⟨hbet.2.1, hbet.2.2.1, hbet.2.2.2⟩
          simp [hune]
        exact ih st2 st' (fun q hq => hp q (List.mem_cons_of_mem _ hq)) h hrel2

/-- Every entry appended by the payout loop is a `bet_win` entry for event
`e`, owned by the bettor of an active bet on the winning option. -/
theorem payWinners_entries {sb : List Bet} {e w : String} :
    ∀ (pairs : List (Bet × BettingOption)) (st st' : Storage),
      (∀ p ∈ pairs, p.1 ∈ sb ∧ p.1.eventId = e ∧ p.1.optionId = w ∧
        p.1.status = "active") →
      payWinners e pairs st = some st' →
      ∃ extra, st'.creditTransactions = st.creditTransactions ++ extra ∧
        ∀ t ∈ extra, t.type = "bet_win" ∧ t.referenceId = some e ∧
          ∃ b ∈ sb, b.eventId = e ∧ b.optionId = w ∧ b.status = "active" ∧
            b.userId = t.userId := by
  intro pairs
  induction pairs with
  | nil =>
      intro st st' _ h
      cases h
      exact ⟨[], (List.append_nil _).symm, fun t ht => absurd ht (List.not_mem_nil t)⟩
  | cons p rest ih =>
      obtain ⟨bet, opt⟩ := p
      intro st st' hp h
      rw [payWinners] at h
      split at h
      · cases h
      next st2 hup =>
        have hbet := hp (bet, opt) (List.mem_cons_self _ _)
        obtain ⟨bal, hsh⟩ := updateUserCredits_entries_shape hup
        obtain ⟨extra, hex, hprop⟩ :=
          ih st2 st' (fun q hq => hp q (List.mem_cons_of_mem _ hq)) h
        refine
          ⟨[{ userId := bet.userId,
              amount := computePayout bet.amount opt.multiplier,
              type := "bet_win", referenceId := some e,
              description := "Betting win payout",
              balanceAfter := bal }] ++ extra, ?_, ?_⟩
        · rw [hex, hsh]
          simp [List.append_assoc]
        · intro t ht
          rcases List.mem_append.mp ht with ht1 | ht2
          · rcases List.mem_singleton.mp ht1 with rfl
            exact ⟨rfl, rfl, bet, hbet.1, hbet.2.1, hbet.2.2.1, hbet.2.2.2, rfl⟩
          · exact hprop t ht2

theorem payWinners_keeps_events {e : String} :
    ∀ (pairs : List (Bet × BettingOption)) (st st' : Storage),
      payWinners e pairs st = some st' →
      st'.bettingEvents = st.bettingEvents := by
  intro pairs
  induction pairs with
  | nil => intro st st' h; cases h; rfl
  | cons p rest ih =>
      obtain ⟨bet, opt⟩ := p
      intro st st' h
      rw [payWinners] at h
      split at h
      · cases h
      next st2 hup =>
        rw [ih st2 st' h, (updateUserCredits_same_rest hup).2.1]

theorem mem_resolve_pairs (s1bets : List Bet) (opts : List BettingOption)
    (e w : String) :
    ∀ p ∈ (s1bets.filter fun b =>
        decide (b.eventId = e ∧ b.optionId = w ∧ b.status = "active")).filterMap
      (fun b => (opts.find? fun o => decide (o.id = b.optionId)).map
        fun o => (b, o)),
      p.1 ∈ s1bets ∧ p.1.eventId = e ∧ p.1.optionId = w ∧
        p.1.status = "active" := by
  intro p hp
  obtain ⟨b, hb, hfb⟩ := List.mem_filterMap.mp hp
  obtain ⟨o, _, ho⟩ := Option.map_eq_some'.mp hfb
  obtain ⟨hbmem, hq⟩ := List.mem_filter.mp hb
  rw [decide_eq_true_eq] at hq
  cases ho
  exact ⟨hbmem, hq.1, hq.2.1, hq.2.2⟩

/-- C10: the operation `resolveBettingEvent` modifies only the designated event and
the bets of that event that are still active; every bet on a different
event, and every bet already cancelled, won or lost, is unchanged; the only
ledger entries appended are `bet_win` payouts for active bets on the
winning option, and every user owning no such bet is unchanged. -/
theorem resolveBettingEvent_frame_effects
    (s s' : Storage) (e w a : String) (now : Int)
    (hwf : WF s)
    (hrun : resolveBettingEvent s e w a now = some s') :
    List.Forall₂ (fun ev ev' => ev.id ≠ e → ev' = ev)
      s.bettingEvents s'.bettingEvents ∧
    List.Forall₂ (fun b b' => b.eventId ≠ e ∨ b.status ≠ "active" → b' = b)
      s.bets s'.bets ∧
    (∃ extra, s'.creditTransactions = s.creditTransactions ++ extra ∧
      ∀ t ∈ extra, t.type = "bet_win" ∧ t.referenceId = some e ∧
        ∃ b ∈ s.bets, b.eventId = e ∧ b.optionId = w ∧ b.status = "active" ∧
          b.userId = t.userId) ∧
    List.Forall₂ (fun u u' =>
      (∀ b ∈ s.bets, b.userId = u.id →
        ¬(b.eventId = e ∧ b.optionId = w ∧ b.status = "active")) → u' = u)
      s.users s'.users := by
  have hinj : ∀ x ∈ s.bets, ∀ y ∈ s.bets, x.id = y.id → x = y :=
    fun x hx y hy => List.inj_on_of_nodup_map hwf.2 hx hy
  unfold resolveBettingEvent at hrun
  dsimp only at hrun
  split at hrun
  · cases hrun
  next s2 hpw =>
    cases hrun
    have hp := mem_resolve_pairs s.bets s.bettingOptions e w
    refine ⟨?_, ?_, ?_, ?_⟩
    · have hev : s2.bettingEvents = s.bettingEvents.map fun ev =>
          if ev.id = e then
            { ev with status := "resolved", winningOptionId := some w,
                      resolvedAt := some now }
          else ev :=
        payWinners_keeps_events _ _ _ hpw
      show List.Forall₂ _ s.bettingEvents s2.bettingEvents
      rw [hev]
      exact forall2_map_right fun ev _ => fun hne => by simp [hne]
    · have hrel0 : List.Forall₂
          (fun b b' => b.eventId ≠ e ∨ b.status ≠ "active" → b' = b)
          s.bets s.bets :=
        List.forall₂_same.mpr fun b _ _ => rfl
      have hrel2 := payWinners_keeps_bets hinj _ _ _
        (fun q hq => ⟨(hp q hq).1, (hp q hq).2.1, (hp q hq).2.2.2⟩)
        hpw hrel0
      show List.Forall₂ _ s.bets (s2.bets.map _)
      refine forall2_map_preserve _ ?_ hrel2
      intro x hx b hxb hbad
      rw [hxb hbad]
      have hnc : ¬(x.eventId = e ∧ x.optionId ≠ w ∧ x.status = "active") := by
        rintro ⟨h1, _, h3⟩
        rcases hbad with hb | hb
        · exact hb h1
        · exact hb h3
      simp [hnc]
    · obtain ⟨extra, hex, hprop⟩ := payWinners_entries _ _ _ hp hpw
      exact ⟨extra, hex, hprop⟩
    · have hrel0 : List.Forall₂ (fun u u' =>
          (∀ b ∈ s.bets, b.userId = u.id →
            ¬(b.eventId = e ∧ b.optionId = w ∧ b.status = "active")) → u' = u)
          s.users s.users :=
        List.forall₂_same.mpr fun u _ _ => rfl
      exact payWinners_keeps_users _ _ _ hp hpw hrel0

def c10_s : Storage :=
  { users := [{ id := "u1", credits := 700, lastStipendDate := none },
              { id := "u2", credits := 50, lastStipendDate := none }],
    challenges := [], challengeSubmissions := [],
    bettingEvents := [{ id := "e1", status := "open",
                        winningOptionId := none, resolvedAt := none },
                      { id := "e2", status := "open",
                        winningOptionId := none, resolvedAt := none }],
    bettingOptions := [{ id := "o1", eventId := "e1", multiplier := 200 },
                       { id := "o2", eventId := "e1", multiplier := 300 }],
    bets := [{ id := "b1", eventId := "e1", optionId := "o1", userId := "u1",
               amount := 300, status := "active", payout := none },
             { id := "b2", eventId := "e1", optionId := "o2", userId := "u2",
               amount := 50, status := "active", payout := none },
             { id := "b3", eventId := "e2", optionId := "o9", userId := "u2",
               amount := 40, status := "active", payout := none }],
    loans := [], creditTransactions := [] }

def c10_r : Storage :=
  { users := [{ id := "u1", credits := 1300, lastStipendDate := none },
              { id := "u2", credits := 50, lastStipendDate := none }],
    challenges := [], challengeSubmissions := [],
    bettingEvents := [{ id := "e1", status := "resolved",
                        winningOptionId := some "o1", resolvedAt := some 7 },
                      { id := "e2", status := "open",
                        winningOptionId := none, resolvedAt := none }],
    bettingOptions := [{ id := "o1", eventId := "e1", multiplier := 200 },
                       { id := "o2", eventId := "e1", multiplier := 300 }],
    bets := [{ id := "b1", eventId := "e1", optionId := "o1", userId := "u1",
               amount := 300, status := "won", payout := some 600 },
             { id := "b2", eventId := "e1", optionId := "o2", userId := "u2",
               amount := 50, status := "lost", payout := none },
             { id := "b3", eventId := "e2", optionId := "o9", userId := "u2",
               amount := 40, status := "active", payout := none }],
    loans := [],
    creditTransactions :=
      [{ userId := "u1", amount := 600, type := "bet_win",
         referenceId := some "e1", description := "Betting win payout",
         balanceAfter := 1300 }] }

theorem resolveBettingEvent_frame_effects_witness :
    ((c10_s.users.map User.id).Nodup ∧ (c10_s.bets.map Bet.id).Nodup) ∧
    resolveBettingEvent c10_s "e1" "o1" "a1" 7 = some c10_r ∧
    (List.Forall₂ (fun ev ev' => ev.id ≠ "e1" → ev' = ev)
      c10_s.bettingEvents c10_r.bettingEvents ∧
    List.Forall₂ (fun b b' => b.eventId ≠ "e1" ∨ b.status ≠ "active" → b' = b)
      c10_s.bets c10_r.bets ∧
    (∃ extra, c10_r.creditTransactions = c10_s.creditTransactions ++ extra ∧
      ∀ t ∈ extra, t.type = "bet_win" ∧ t.referenceId = some "e1" ∧
        ∃ b ∈ c10_s.bets, b.eventId = "e1" ∧ b.optionId = "o1" ∧
          b.status = "active" ∧ b.userId = t.userId) ∧
    List.Forall₂ (fun u u' =>
      (∀ b ∈ c10_s.bets, b.userId = u.id →
        ¬(b.eventId = "e1" ∧ b.optionId = "o1" ∧ b.status = "active")) → u' = u)
      c10_s.users c10_r.users) :=
  ⟨⟨by decide, by decide⟩, by decide,
    resolveBettingEvent_frame_effects c10_s c10_r "e1" "o1" "a1" 7
      ⟨by decide, by decide⟩ (by decide)⟩

/-! ## Claim C3: re-resolving an already-resolved event -/

def c3_s : Storage :=
  { users := [{ id := "u1", credits := 1000, lastStipendDate := none }],
    challenges := [], challengeSubmissions := [],
    bettingEvents := [{ id := "e1", status := "resolved",
                        winningOptionId := some "o1", resolvedAt := some 5 }],
    bettingOptions := [{ id := "o1", eventId := "e1", multiplier := 200 }],
    bets := [{ id := "b1", eventId := "e1", optionId := "o1", userId := "u1",
               amount := 300, status := "active", payout := none }],
    loans := [], creditTransactions := [] }

def c3_r : Storage :=
  { users := [{ id := "u1", credits := 1600, lastStipendDate := none }],
    challenges := [], challengeSubmissions := [],
    bettingEvents := [{ id := "e1", status := "resolved",
                        winningOptionId := some "o1", resolvedAt := some 7 }],
    bettingOptions := [{ id := "o1", eventId := "e1", multiplier := 200 }],
    bets := [{ id := "b1", eventId := "e1", optionId := "o1", userId := "u1",
               amount := 300, status := "won", payout := some 600 }],
    loans := [],
    creditTransactions :=
      [{ userId := "u1", amount := 600, type := "bet_win",
         referenceId := some "e1", description := "Betting win payout",
         balanceAfter := 1600 }] }

/-- C3 is violated by the code: `resolveBettingEvent` never checks the
event's status, so calling it on an event already `resolved` is not
rejected — it overwrites the event's resolution data, appends a further
`bet_win` ledger entry, changes the bettor's balance and flips a bet to
`won`. -/
theorem resolve_already_resolved_not_rejected :
    c3_s.bettingEvents.map BettingEvent.status = ["resolved"] ∧
    resolveBettingEvent c3_s "e1" "o1" "a1" 7 = some c3_r ∧
    c3_r.creditTransactions.length = c3_s.creditTransactions.length + 1 ∧
    c3_r.users.map User.credits ≠ c3_s.users.map User.credits ∧
    c3_r.bets.map Bet.status ≠ c3_s.bets.map Bet.status := by
  exact ⟨by decide, by decide, by decide, by decide, by decide⟩

/-! ## Claim C4: funding a loan that is not pending -/

def c4_s : Storage :=
  { users := [{ id := "b", credits := 0, lastStipendDate := none },
              { id := "y", credits := 100, lastStipendDate := none }],
    challenges := [], challengeSubmissions := [], bettingEvents := [],
    bettingOptions := [], bets := [],
    loans := [{ id := "l1", borrowerId := "b", lenderId := some "x",
                amount := 500, interestRate := 10, totalRepayment := 550,
                dueDate := 99, status := "funded", fundedAt := some 1,
                repaidAt := none }],
    creditTransactions := [] }

def c4_r : Storage :=
  { users := [{ id := "b", credits := 500, lastStipendDate := none },
              { id := "y", credits := -400, lastStipendDate := none }],
    challenges := [], challengeSubmissions := [], bettingEvents := [],
    bettingOptions := [], bets := [],
    loans := [{ id := "l1", borrowerId := "b", lenderId := some "y",
                amount := 500, interestRate := 10, totalRepayment := 550,
                dueDate := 99, status := "funded", fundedAt := some 7,
                repaidAt := none }],
    creditTransactions :=
      [{ userId := "y", amount := -500, type := "loan_funded",
         referenceId := some "l1", description := "Loan funded to another user",
         balanceAfter := -400 },
       { userId := "b", amount := 500, type := "loan_received",
         referenceId := some "l1",
         description := "Loan received from another user",
         balanceAfter := 500 }] }

/-- C4 is violated by the code: `fundLoan` never checks that the loan is
`pending`.  Funding a loan that is already `funded` (by lender `x`)
succeeds, replaces the lender, refreshes the funded timestamp, and moves
the amount again. -/
theorem fundLoan_funds_non_pending_loan :
    c4_s.loans.map Loan.status = ["funded"] ∧
    fundLoan c4_s "l1" "y" 7 = some c4_r ∧
    c4_r.creditTransactions.length = c4_s.creditTransactions.length + 2 ∧
    c4_r.users.map User.credits ≠ c4_s.users.map User.credits := by
  exact ⟨by decide, by decide, by decide, by decide⟩

/-! ## Claim C5: repaying a loan that is not funded -/

def c5_s : Storage :=
  { users := [{ id := "b", credits := 550, lastStipendDate := none },
              { id := "x", credits := 0, lastStipendDate := none }],
    challenges := [], challengeSubmissions := [], bettingEvents := [],
    bettingOptions := [], bets := [],
    loans := [{ id := "l1", borrowerId := "b", lenderId := some "x",
                amount := 500, interestRate := 10, totalRepayment := 550,
                dueDate := 99, status := "repaid", fundedAt := some 1,
                repaidAt := some 2 }],
    creditTransactions := [] }

def c5_r : Storage :=
  { users := [{ id := "b", credits := 0, lastStipendDate := none },
              { id := "x", credits := 550, lastStipendDate := none }],
    challenges := [], challengeSubmissions := [], bettingEvents := [],
    bettingOptions := [], bets := [],
    loans := [{ id := "l1", borrowerId := "b", lenderId := some "x",
                amount := 500, interestRate := 10, totalRepayment := 550,
                dueDate := 99, status := "repaid", fundedAt := some 1,
                repaidAt := some 7 }],
    creditTransactions :=
      [{ userId := "b", amount := -550, type := "loan_repaid",
         referenceId := some "l1", description := "Loan repayment",
         balanceAfter := 0 },
       { userId := "x", amount := 550, type := "loan_repaid_received",
         referenceId := some "l1", description := "Loan repayment received",
         balanceAfter := 550 }] }

/-- C5 is violated by the code: `repayLoan` never checks that the loan is
`funded`.  Repaying a loan already `repaid` succeeds and moves
`totalRepayment` borrower→lender a second time. -/
theorem repayLoan_repays_non_funded_loan :
    c5_s.loans.map Loan.status = ["repaid"] ∧
    repayLoan c5_s "l1" 7 = some c5_r ∧
    c5_r.creditTransactions.length = c5_s.creditTransactions.length + 2 ∧
    c5_r.users.map User.credits ≠ c5_s.users.map User.credits := by
  exact ⟨by decide, by decide, by decide, by decide⟩

/-! ## Claim C6: reviewing a submission that is not pending -/

def c6_s : Storage :=
  { users := [{ id := "u1", credits := 10, lastStipendDate := none }],
    challenges := [{ id := "c1", title := "T", reward := 50 }],
    challengeSubmissions :=
      [{ id := "s1", challengeId := "c1", userId := "u1",
         status := "approved", reviewedBy := some "r0", reviewedAt := some 3 }],
    bettingEvents := [], bettingOptions := [], bets := [], loans := [],
    creditTransactions := [] }

def c6_r : Storage :=
  { users := [{ id := "u1", credits := 60, lastStipendDate := none }],
    challenges := [{ id := "c1", title := "T", reward := 50 }],
    challengeSubmissions :=
      [{ id := "s1", challengeId := "c1", userId := "u1",
         status := "approved", reviewedBy := some "r1", reviewedAt := some 7 }],
    bettingEvents := [], bettingOptions := [], bets := [], loans := [],
    creditTransactions :=
      [{ userId := "u1", amount := 50, type := "challenge_reward",
         referenceId := some "c1", description := "Challenge completed: T",
         balanceAfter := 60 }] }

/-- C6 is violated by the code: `reviewSubmission` never checks that the
submission is `pending`.  Re-approving an already-approved submission
succeeds, overwrites the reviewer and timestamp, and credits the
challenge reward a second time. -/
theorem reviewSubmission_re_reviews_reviewed_submission :
    c6_s.challengeSubmissions.map ChallengeSubmission.status = ["approved"] ∧
    reviewSubmission c6_s "s1" "approved" "r1" 7 = some c6_r ∧
    c6_r.creditTransactions.length = c6_s.creditTransactions.length + 1 ∧
    c6_r.users.map User.credits ≠ c6_s.users.map User.credits := by
  exact ⟨by decide, by decide, by decide, by decide⟩

/-! ## Claim C7: placing an invalid bet -/

def c7_s : Storage :=
  { users := [{ id := "u1", credits := 100, lastStipendDate := none }],
    challenges := [], challengeSubmissions := [],
    bettingEvents := [{ id := "e1", status := "resolved",
                        winningOptionId := some "o1", resolvedAt := some 5 }],
    bettingOptions := [{ id := "o1", eventId := "e1", multiplier := 200 }],
    bets := [], loans := [], creditTransactions := [] }

def c7_r : Storage :=
  { users := [{ id := "u1", credits := 150, lastStipendDate := none }],
    challenges := [], challengeSubmissions := [],
    bettingEvents := [{ id := "e1", status := "resolved",
                        winningOptionId := some "o1", resolvedAt := some 5 }],
    bettingOptions := [{ id := "o1", eventId := "e1", multiplier := 200 }],
    bets := [{ id := "b9", eventId := "e1", optionId := "o1", userId := "u1",
               amount := -50, status := "active", payout := none }],
    loans := [],
    creditTransactions :=
      [{ userId := "u1", amount := 50, type := "bet_placed",
         referenceId := some "e1", description := "Bet placed",
         balanceAfter := 150 }] }

/-- C7 is violated by the code: `placeBet` validates neither `amount > 0`
nor that the event is `open`.  A bet of amount `-50` on an event already
`resolved` is accepted, the bet row is created `active`, and the
player's balance *increases* by 50. -/
theorem placeBet_accepts_invalid_bet :
    c7_s.bettingEvents.map BettingEvent.status = ["resolved"] ∧
    placeBet c7_s "b9"
      { eventId := "e1", optionId := "o1", userId := "u1", amount := -50 } =
      some c7_r ∧
    c7_r.bets.length = c7_s.bets.length + 1 ∧
    c7_r.users.map User.credits = [150] ∧
    c7_s.users.map User.credits = [100] := by
  exact ⟨by decide, by decide, by decide, by decide, by decide⟩

/-! ## Claim C8: cancelling a bet that is not active -/

def c8_s : Storage :=
  { users := [{ id := "u1", credits := 500, lastStipendDate := none }],
    challenges := [], challengeSubmissions := [],
    bettingEvents := [{ id := "e1", status := "open",
                        winningOptionId := none, resolvedAt := none }],
    bettingOptions := [{ id := "o1", eventId := "e1", multiplier := 200 }],
    bets := [{ id := "b1", eventId := "e1", optionId := "o1", userId := "u1",
               amount := 100, status := "cancelled", payout := none }],
    loans := [], creditTransactions := [] }

def c8_r : Storage :=
  { users := [{ id := "u1", credits := 600, lastStipendDate := none }],
    challenges := [], challengeSubmissions := [],
    bettingEvents := [{ id := "e1", status := "open",
                        winningOptionId := none, resolvedAt := none }],
    bettingOptions := [{ id := "o1", eventId := "e1", multiplier := 200 }],
    bets := [{ id := "b1", eventId := "e1", optionId := "o1", userId := "u1",
               amount := 100, status := "cancelled", payout := none }],
    loans := [],
    creditTransactions :=
      [{ userId := "u1", amount := 100, type := "bet_cancelled",
         referenceId := some "e1", description := "Bet cancelled and refunded",
         balanceAfter := 600 }] }

/-- C8 is violated by the code: `cancelBet` matches on id and owner only,
never on `status = "active"`.  Cancelling a bet that is already
`cancelled` succeeds and refunds the stake a second time. -/
theorem cancelBet_refunds_non_active_bet :
    c8_s.bets.map Bet.status = ["cancelled"] ∧
    cancelBet c8_s "b1" "u1" = some c8_r ∧
    c8_r.creditTransactions.length = c8_s.creditTransactions.length + 1 ∧
    c8_r.users.map User.credits = [600] ∧
    c8_s.users.map User.credits = [500] := by
  exact ⟨by decide, by decide, by decide, by decide, by decide⟩

/-! ## Claim C9: payout arithmetic is binary64, not exact decimal -/

def c9_s : Storage :=
  { users := [{ id := "u1", credits := 1000, lastStipendDate := none }],
    challenges := [], challengeSubmissions := [],
    bettingEvents := [{ id := "e1", status := "open",
                        winningOptionId := none, resolvedAt := none }],
    bettingOptions := [{ id := "o1", eventId := "e1", multiplier := 435 }],
    bets := [{ id := "b1", eventId := "e1", optionId := "o1", userId := "u1",
               amount := 100, status := "active", payout := none }],
    loans := [], creditTransactions := [] }

def c9_r : Storage :=
  { users := [{ id := "u1", credits := 1434, lastStipendDate := none }],
    challenges := [], challengeSubmissions := [],
    bettingEvents := [{ id := "e1", status := "resolved",
                        winningOptionId := some "o1", resolvedAt := some 7 }],
    bettingOptions := [{ id := "o1", eventId := "e1", multiplier := 435 }],
    bets := [{ id := "b1", eventId := "e1", optionId := "o1", userId := "u1",
               amount := 100, status := "won", payout := some 434 }],
    loans := [],
    creditTransactions :=
      [{ userId := "u1", amount := 434, type := "bet_win",
         referenceId := some "e1", description := "Betting win payout",
         balanceAfter := 1434 }] }

/-- C9 as stated is false: for a bet of 100 on a multiplier of 4.35 (two
decimal places), the exact decimal floor is `⌊100 × 4.35⌋ = 435`, but the
code computes `Math.floor(100 * parseFloat("4.35")) = 434` because the
binary64 product is just below 435.  The credited payout, the recorded
payout and the balance all use 434. -/
theorem resolve_payout_drifts_from_exact_floor :
    resolveBettingEvent c9_s "e1" "o1" "a1" 7 = some c9_r ∧
    Int.fdiv (100 * 435) 100 = 435 ∧
    computePayout 100 435 = 434 ∧
    ¬ computePayout 100 435 = Int.fdiv (100 * 435) 100 := by
  exact ⟨by decide, by decide, by decide, by decide⟩

def c9a_s : Storage :=
  { users := [{ id := "u1", credits := 700, lastStipendDate := none }],
    challenges := [], challengeSubmissions := [],
    bettingEvents := [{ id := "e1", status := "open",
                        winningOptionId := none, resolvedAt := none }],
    bettingOptions := [{ id := "o1", eventId := "e1", multiplier := 200 }],
    bets := [{ id := "b1", eventId := "e1", optionId := "o1", userId := "u1",
               amount := 300, status := "active", payout := none }],
    loans := [],
    creditTransactions :=
      [{ userId := "u1", amount := -300, type := "bet_placed",
         referenceId := some "e1", description := "Bet placed",
         balanceAfter := 700 }] }

def c9a_r : Storage :=
  { users := [{ id := "u1", credits := 1300, lastStipendDate := none }],
    challenges := [], challengeSubmissions := [],
    bettingEvents := [{ id := "e1", status := "resolved",
                        winningOptionId := some "o1", resolvedAt := some 7 }],
    bettingOptions := [{ id := "o1", eventId := "e1", multiplier := 200 }],
    bets := [{ id := "b1", eventId := "e1", optionId := "o1", userId := "u1",
               amount := 300, status := "won", payout := some 600 }],
    loans := [],
    creditTransactions :=
      [{ userId := "u1", amount := -300, type := "bet_placed",
         referenceId := some "e1", description := "Bet placed",
         balanceAfter := 700 },
       { userId := "u1", amount := 600, type := "bet_win",
         referenceId := some "e1", description := "Betting win payout",
         balanceAfter := 1300 }] }

/-- C9 amended: the payout credited and recorded on a winning bet is
`Math.floor` of the IEEE-754 binary64 product
`amount * parseFloat(multiplier)`.  This matches the exact decimal floor
when the product is exactly representable — the spec's example
300 × 2.00 pays exactly 600 and the balance becomes 1300 — but it can be
one below the exact decimal floor, e.g. 100 × 4.35 pays 434, not 435. -/
theorem resolve_payout_is_float_floor :
    resolveBettingEvent c9a_s "e1" "o1" "a1" 7 = some c9a_r ∧
    c9a_r.users.map User.credits = [1300] ∧
    computePayout 300 200 = Int.fdiv (300 * 200) 100 ∧
    resolveBettingEvent c9_s "e1" "o1" "a1" 7 = some c9_r ∧
    computePayout 100 435 = Int.fdiv (100 * 435) 100 - 1 := by
  exact ⟨by decide, by decide, by decide, by decide, by decide⟩

end CautiousTribble
